import Mathlib

/-!
# GPS Route Video Generator — verification of the track parsers and the video job client

Shallow embedding of the meaningful logic of the repository:

* `parseGpx` / `parseKml` (src/src/App.tsx): regex-based extraction of
  coordinate lists from GPX/KML text.  JavaScript strings are modelled as
  `List Char`; the two regexes are deterministic (every quantified class is
  disjoint from the character that must follow it), so they are embedded as
  straight-line greedy scanners.  JavaScript numbers are modelled exactly
  (`JsNum` is `nan` or an exact rational): the claims under study concern
  extraction structure, count and order, never IEEE rounding.

* `generateRouteVideo` (services/geminiService.ts, reproduced in
  src/replit.md): submit → poll → extract pipeline over an external
  operation, modelled as a function of an environment (`VideoEnv`) that
  fixes the submission outcome and the outcome of every re-query, with a
  fuel bound standing for the number of loop iterations observed.
-/

namespace GpsRoute

/-! ## JavaScript primitives -/

/-- The character class `\s` of JavaScript regexes, which is also the set
stripped by `String.prototype.trim`: ASCII whitespace, NBSP, the Unicode
space separators, the line separators and the BOM. -/
def jsWhitespace (c : Char) : Bool :=
  let n := c.toNat
  n == 0x20 || n == 0x09 || n == 0x0a || n == 0x0b || n == 0x0c || n == 0x0d ||
  n == 0xa0 || n == 0x1680 || (0x2000 ≤ n && n ≤ 0x200a) ||
  n == 0x2028 || n == 0x2029 || n == 0x202f || n == 0x205f || n == 0x3000 || n == 0xfeff

/-- `String.prototype.trim`: strip `jsWhitespace` from both ends. -/
def jsTrim (l : List Char) : List Char :=
  ((l.dropWhile jsWhitespace).reverse.dropWhile jsWhitespace).reverse

/-- A JavaScript number as observed by the parsers: `NaN` or an exact
value.  The float value is kept as an exact rational (the IEEE rounding
step is abstracted away; no claim depends on it). -/
inductive JsNum where
  | nan : JsNum
  | val (q : ℚ) : JsNum
deriving DecidableEq, Repr

/-- `isNaN` on a (coerced) `JsNum`. -/
def jsIsNaN : JsNum → Bool
  | JsNum.nan => true
  | JsNum.val _ => false

/-- Read an optional leading sign, returning the sign as a rational. -/
def readSignQ : List Char → ℚ × List Char
  | '+' :: r => (1, r)
  | '-' :: r => (-1, r)
  | l => (1, l)

/-- Read an optional leading sign, returning the sign as an integer. -/
def readSignZ : List Char → ℤ × List Char
  | '+' :: r => (1, r)
  | '-' :: r => (-1, r)
  | l => (1, l)

/-- Split off the maximal leading run of decimal digits. -/
def readDigits : List Char → List Char × List Char
  | [] => ([], [])
  | c :: r =>
    if c.isDigit then
      let p := readDigits r
      (c :: p.1, p.2)
    else ([], c :: r)

/-- Value of a digit run read in base 10. -/
def digitsToNat (ds : List Char) : ℕ :=
  ds.foldl (fun a c => 10 * a + (c.toNat - 48)) 0

/-- Exact value of an integer part / fraction part pair. -/
def mantissa (ip fp : List Char) : ℚ :=
  (digitsToNat ip : ℚ) + (digitsToNat fp : ℚ) / (10 : ℚ) ^ fp.length

/-- Exponent clause of `parseFloat`: an `e`/`E` followed by an optionally
signed digit run; if the digit run is absent the exponent clause is not
consumed and contributes 0. -/
def readExpFloat (l : List Char) : ℤ :=
  match l with
  | [] => 0
  | c :: r =>
    if c == 'e' || c == 'E' then
      let p := readSignZ r
      let d := readDigits p.2
      if d.1.isEmpty then 0 else p.1 * (digitsToNat d.1 : ℤ)
    else 0

/-- `parseFloat`: strip leading whitespace, then take the longest prefix
that is a signed decimal literal; `NaN` when no digits occur.  Modelled for
finite decimal literals (the `Infinity` spelling is not modelled; no input
in this development uses it); the value is exact. -/
def parseFloat (l : List Char) : JsNum :=
  let t := l.dropWhile jsWhitespace
  let s := readSignQ t
  let ipp := readDigits s.2
  let fpp := match ipp.2 with
    | '.' :: r => readDigits r
    | _ => ([], ipp.2)
  if ipp.1.isEmpty && fpp.1.isEmpty then JsNum.nan
  else JsNum.val (s.1 * mantissa ipp.1 fpp.1 * (10 : ℚ) ^ readExpFloat fpp.2)

/-- Whole-string signed decimal literal, as required by `Number(...)`:
the entire input (already trimmed) must be consumed. -/
def numLitVal (t : List Char) : Option ℚ :=
  let s := readSignQ t
  let ipp := readDigits s.2
  let fpp := match ipp.2 with
    | '.' :: r => readDigits r
    | _ => ([], ipp.2)
  if ipp.1.isEmpty && fpp.1.isEmpty then none
  else
    match fpp.2 with
    | [] => some (s.1 * mantissa ipp.1 fpp.1)
    | c :: r =>
      if c == 'e' || c == 'E' then
        let es := readSignZ r
        let ed := readDigits es.2
        if ed.1.isEmpty || !ed.2.isEmpty then none
        else some (s.1 * mantissa ipp.1 fpp.1 * (10 : ℚ) ^ (es.1 * (digitsToNat ed.1 : ℤ)))
      else none

/-- `Number(string)`: trim; the empty string converts to `0`; otherwise the
whole string must be a decimal literal, else `NaN`.  Modelled for decimal
literals (hex/octal/binary and `Infinity` spellings are not modelled; no
input in this development uses them); the value is exact. -/
def jsNumber (l : List Char) : JsNum :=
  let t := jsTrim l
  if t.isEmpty then JsNum.val 0
  else
    match numLitVal t with
    | some q => JsNum.val q
    | none => JsNum.nan

/-- A parsed coordinate, as pushed by both parsers: `{ lat, lon }`. -/
structure Coordinate where
  lat : JsNum
  lon : JsNum
deriving DecidableEq, Repr

/-! ## Regex building blocks

Both regexes of App.tsx are deterministic: each quantified character class
(`\s+`, `[^"]+`, `[^<]+`) cannot match the character the pattern requires
next, so the greedy match never backtracks and the regex is equivalent to a
straight-line scanner made of literal matches and maximal-run captures. -/

/-- Consume an exact literal prefix, returning the remainder. -/
def matchLit : List Char → List Char → Option (List Char)
  | [], l => some l
  | _ :: _, [] => none
  | a :: as, c :: cs => if a = c then matchLit as cs else none

/-- A `+`-quantified character class: the maximal run of characters
satisfying `p`, which must be non-empty. -/
def takeWhile1 (p : Char → Bool) (l : List Char) : Option (List Char × List Char) :=
  let run := l.takeWhile p
  if run.isEmpty then none else some (run, l.dropWhile p)

/-- One attribute clause `\s+NM([^"]+)"` of the trkpt regex, where `NM` is
the literal attribute text up to and including its opening quote
(`lat="` or `lon="`): whitespace run, literal, quoted value capture. -/
def matchAttr (nm : List Char) (l : List Char) : Option (List Char × List Char) :=
  match takeWhile1 jsWhitespace l with
  | none => none
  | some (_, r1) =>
    match matchLit nm r1 with
    | none => none
    | some r2 =>
      match takeWhile1 (fun c => c != '"') r2 with
      | none => none
      | some (v, r3) =>
        match r3 with
        | '"' :: r4 => some (v, r4)
        | _ => none

/-- One match attempt of `/<trkpt\s+lat="([^"]+)"\s+lon="([^"]+)"/` at the
head of the input: on success, the two captures and the remainder after the
closing quote of `lon`. -/
def matchTrkpt (l : List Char) : Option (List Char × List Char × List Char) :=
  match matchLit "<trkpt".toList l with
  | none => none
  | some r1 =>
    match matchAttr "lat=\"".toList r1 with
    | none => none
    | some (la, r2) =>
      match matchAttr "lon=\"".toList r2 with
      | none => none
      | some (lo, r3) => some (la, lo, r3)

/-- `String.prototype.matchAll` driver: try a match at each position from
left to right; on success continue after the match, on failure advance one
character.  The fuel argument (instantiated with the input length) makes
the recursion structural; every successful match consumes at least one
character, so the fuel never runs out on the real call. -/
def scanGpxAux : ℕ → List Char → List (List Char × List Char)
  | 0, _ => []
  | _ + 1, [] => []
  | n + 1, c :: rest =>
    match matchTrkpt (c :: rest) with
    | some (la, lo, r) => (la, lo) :: scanGpxAux n r
    | none => scanGpxAux n rest

/-- All matches of the trkpt regex, in document order, as capture pairs. -/
def scanGpx (l : List Char) : List (List Char × List Char) :=
  scanGpxAux l.length l

/-- The coordinate list built by `parseGpx` before its emptiness check:
one `{ lat: parseFloat(m[1]), lon: parseFloat(m[2]) }` per regex match. -/
def gpxCoordinates (l : List Char) : List Coordinate :=
  (scanGpx l).map fun p => { lat := parseFloat p.1, lon := parseFloat p.2 }

/-- `parseGpx` (App.tsx:56-66): collect a coordinate per trkpt regex match;
throw when none were collected. -/
def parseGpx (s : String) : Except String (List Coordinate) :=
  let coords := gpxCoordinates s.toList
  if coords.length = 0 then Except.error "No track points found in GPX file."
  else Except.ok coords

/-- One match attempt of `/<coordinates>([^<]+)<\/coordinates>/s` at the
head of the input: on success, the capture and the remainder. -/
def matchCoordBlock (l : List Char) : Option (List Char × List Char) :=
  match matchLit "<coordinates>".toList l with
  | none => none
  | some r1 =>
    match takeWhile1 (fun c => c != '<') r1 with
    | none => none
    | some (v, r2) =>
      match matchLit "</coordinates>".toList r2 with
      | none => none
      | some r3 => some (v, r3)

/-- `RegExp.prototype.exec` driver: the capture of the leftmost match of
the coordinates regex, if any. -/
def findCoordBlock : List Char → Option (List Char)
  | [] => none
  | c :: rest =>
    match matchCoordBlock (c :: rest) with
    | some (v, _) => some v
    | none => findCoordBlock rest

/-- Accumulating driver for `String.prototype.split(/\s+/)`: `acc` is the
current piece reversed, `inWs` records whether the previous character
belonged to a separator run (so further whitespace extends that run rather
than opening a new piece). -/
def wsSplitAux (acc : List Char) (inWs : Bool) : List Char → List (List Char)
  | [] => [acc.reverse]
  | c :: rest =>
    if jsWhitespace c then
      if inWs then wsSplitAux acc true rest
      else acc.reverse :: wsSplitAux [] true rest
    else wsSplitAux (c :: acc) false rest

/-- `split(/\s+/)`: pieces between maximal whitespace runs (leading or
trailing runs contribute empty pieces, as in JavaScript). -/
def wsSplit (l : List Char) : List (List Char) :=
  wsSplitAux [] false l

/-- Accumulating driver for `String.prototype.split(',')`. -/
def splitCommaAux (acc : List Char) : List Char → List (List Char)
  | [] => [acc.reverse]
  | c :: rest =>
    if c = ',' then acc.reverse :: splitCommaAux [] rest
    else splitCommaAux (c :: acc) rest

/-- `split(',')`: pieces between commas; adjacent commas yield empty
pieces. -/
def splitComma (l : List Char) : List (List Char) :=
  splitCommaAux [] l

/-- `pair.split(',').map(Number)` of parseKml. -/
def kmlTokComps (t : List Char) : List JsNum :=
  (splitComma t).map jsNumber

/-- The `lon` binding of the destructuring `[lon, lat] = ...`: the first
component, or `undefined` (which `isNaN` coerces to `NaN`) when absent. -/
def kmlTokLon (t : List Char) : JsNum :=
  (kmlTokComps t).getD 0 JsNum.nan

/-- The `lat` binding of the destructuring `[lon, lat] = ...`: the second
component, or `undefined` (which `isNaN` coerces to `NaN`) when absent. -/
def kmlTokLat (t : List Char) : JsNum :=
  (kmlTokComps t).getD 1 JsNum.nan

/-- The per-token body of parseKml's `forEach`: push `{ lat, lon }` when
neither destructured component is `NaN`, otherwise push nothing.  Any
third (altitude) component is never consulted. -/
def parseKmlToken (t : List Char) : Option Coordinate :=
  if jsIsNaN (kmlTokLon t) || jsIsNaN (kmlTokLat t) then none
  else some { lat := kmlTokLat t, lon := kmlTokLon t }

/-- The coordinate list built by `parseKml` before its emptiness check:
nothing without a regex match (or with an empty capture, which is falsy);
otherwise the surviving tokens of the trimmed, whitespace-split capture. -/
def kmlExtract (l : List Char) : List Coordinate :=
  match findCoordBlock l with
  | none => []
  | some content =>
    if content.isEmpty then []
    else (wsSplit (jsTrim content)).filterMap parseKmlToken

/-- `parseKml` (App.tsx:68-84): extract from the first coordinates block;
throw when nothing was collected. -/
def parseKml (s : String) : Except String (List Coordinate) :=
  let coords := kmlExtract s.toList
  if coords.length = 0 then Except.error "No coordinates found in KML file."
  else Except.ok coords

/-! ## Video job client (`generateRouteVideo`, services/geminiService.ts)

The external service is modelled by an environment fixing the outcome of
the submission call and of every re-query; the polling loop is given a fuel
bound standing for the number of wait-and-requery iterations it is allowed
to observe, with `none` meaning the loop is still running after that many
iterations. -/

/-- A JavaScript thrown value as the catch block distinguishes them: an
`Error` carrying a message, or any non-`Error` value. -/
inductive Thrown where
  | jsError (msg : String) : Thrown
  | nonError : Thrown
deriving DecidableEq, Repr

/-- The observable state of the external operation at one query: its
`done` flag and `response?.generatedVideos?.[0]?.video?.uri`. -/
structure Operation where
  done : Bool
  videoUri : Option String
deriving DecidableEq, Repr

/-- Environment of one `generateRouteVideo` call: the outcome of
`ai.models.generateVideos` and, for every `n`, the outcome of the `n`-th
`ai.operations.getVideosOperation` re-query. -/
structure VideoEnv where
  submit : Except Thrown Operation
  poll : ℕ → Except Thrown Operation

/-- `JavaScript String.prototype.includes`: substring containment. -/
def startsWithL : List Char → List Char → Bool
  | [], _ => true
  | _ :: _, [] => false
  | a :: as, b :: bs => a == b && startsWithL as bs

/-- Substring containment (`hay.includes(needle)`). -/
def containsL (hay needle : List Char) : Bool :=
  startsWithL needle hay ||
    match hay with
    | [] => false
    | _ :: t => containsL t needle

/-- `'The provided API Key is invalid. Please check your configuration.'` -/
def apiKeyInvalidMsg : String :=
  "The provided API Key is invalid. Please check your configuration."

/-- `"Failed to generate video. The AI model may be busy or an error occurred."` -/
def genericFailMsg : String :=
  "Failed to generate video. The AI model may be busy or an error occurred."

/-- `"Video generation completed, but no download link was found."` -/
def noLinkMsg : String :=
  "Video generation completed, but no download link was found."

/-- The catch block of `generateRouteVideo`: an `Error` whose message
includes `'API key not valid'` is replaced by the credential message; every
other thrown value is replaced by the generic message. -/
def catchMsg : Thrown → String
  | Thrown.jsError m =>
    if containsL m.toList "API key not valid".toList then apiKeyInvalidMsg
    else genericFailMsg
  | Thrown.nonError => genericFailMsg

/-- The `while (!operation.done)` loop: starting from the current
operation, if `done` exit with it; otherwise sleep 10 s, re-query (query
index `i`), and repeat.  On exit, the number of wait-and-requery iterations
performed is returned alongside the outcome (each iteration is exactly one
`sleep(10000)` followed by one `getVideosOperation` call).  `none` means
the loop had not exited after `fuel` iterations. -/
def pollLoop (poll : ℕ → Except Thrown Operation) :
    ℕ → Operation → ℕ → Option (Except Thrown Operation × ℕ)
  | fuel, op, i =>
    if op.done then some (Except.ok op, 0)
    else
      match fuel with
      | 0 => none
      | n + 1 =>
        match poll i with
        | Except.error e => some (Except.error e, 1)
        | Except.ok op' =>
          match pollLoop poll n op' (i + 1) with
          | none => none
          | some (r, k) => some (r, k + 1)

/-- The `try` block of `generateRouteVideo`: submit, poll to completion,
then extract the download link, throwing `noLinkMsg` when the completed
operation carries none. -/
def tryBody (env : VideoEnv) (fuel : ℕ) : Option (Except Thrown String × ℕ) :=
  match env.submit with
  | Except.error e => some (Except.error e, 0)
  | Except.ok op0 =>
    match pollLoop env.poll fuel op0 0 with
    | none => none
    | some (Except.error e, k) => some (Except.error e, k)
    | some (Except.ok opF, k) =>
      match opF.videoUri with
      | some uri => some (Except.ok uri, k)
      | none => some (Except.error (Thrown.jsError noLinkMsg), k)

/-- `generateRouteVideo`: the `try` block wrapped in its catch, which maps
every thrown value (the internal `noLinkMsg` throw included, since it is
raised inside the same `try`) through `catchMsg`. -/
def generateRouteVideo (env : VideoEnv) (fuel : ℕ) :
    Option (Except String String × ℕ) :=
  match tryBody env fuel with
  | none => none
  | some (Except.ok uri, k) => some (Except.ok uri, k)
  | some (Except.error e, k) => some (Except.error (catchMsg e), k)

/-! ## Input families used to state the universally quantified claims

The parser claims quantify over "GPX text containing N well-formed
markers" and "KML text with a coordinates block of N tokens".  They are
stated over documents assembled from arbitrary capture strings and
arbitrary filler text, with the filler restricted to contain no `<` so
that "well-formed marker / block" is unambiguous. -/

/-- A well-formed trkpt marker `<trkpt lat="LA" lon="LO"/>` with the
attribute values `la` and `lo`. -/
def mkTrkptL (la lo : List Char) : List Char :=
  "<trkpt lat=\"".toList ++ la ++ "\" lon=\"".toList ++ lo ++ "\"/>".toList

/-- `N` markers in order, each followed by the filler `sep`. -/
def gpxMarkers (pts : List (List Char × List Char)) (sep : List Char) : List Char :=
  match pts with
  | [] => []
  | p :: ps => mkTrkptL p.1 p.2 ++ sep ++ gpxMarkers ps sep

/-- A GPX document: filler, then the markers interleaved with filler. -/
def gpxDoc (pre : List Char) (pts : List (List Char × List Char))
    (sep post : List Char) : String :=
  String.mk (pre ++ gpxMarkers pts sep ++ post)

/-- The coordinate a marker's captures produce:
`{ lat: parseFloat(la), lon: parseFloat(lo) }`. -/
def coordOfCaptures (p : List Char × List Char) : Coordinate :=
  { lat := parseFloat p.1, lon := parseFloat p.2 }

/-- Tokens joined by single spaces (the content of a coordinates block). -/
def icSpace : List (List Char) → List Char
  | [] => []
  | [t] => t
  | t :: ts => t ++ ' ' :: icSpace ts

/-- A coordinates block around the given content. -/
def wrapCoords (c : List Char) : List Char :=
  "<coordinates>".toList ++ c ++ "</coordinates>".toList

/-- A KML document: filler, then one coordinates block holding the given
whitespace-separated tokens, then arbitrary trailing text. -/
def kmlDoc (pre : List Char) (toks : List (List Char)) (post : List Char) : String :=
  String.mk (pre ++ wrapCoords (icSpace toks) ++ post)

/-- The coordinate a valid KML token produces: latitude from the second
comma component, longitude from the first. -/
def coordOfToken (t : List Char) : Coordinate :=
  { lat := kmlTokLat t, lon := kmlTokLon t }

/-- Environment whose submission immediately reports a completed operation
carrying no video reference. -/
def envNoResult : VideoEnv :=
  { submit := Except.ok { done := true, videoUri := none }
    poll := fun _ => Except.ok { done := true, videoUri := none } }

/-- Environment whose submission fails with a transport error. -/
def envTransportFail : VideoEnv :=
  { submit := Except.error (Thrown.jsError "fetch failed: network unreachable")
    poll := fun _ => Except.ok { done := true, videoUri := none } }

/-- Environment whose submission fails with an invalid-credential error. -/
def envBadKey : VideoEnv :=
  { submit := Except.error
      (Thrown.jsError "API key not valid. Please pass a valid API key.")
    poll := fun _ => Except.ok { done := true, videoUri := none } }

/-- Environment whose operation reports `done = false` twice (at
submission and at the first re-query) and then completes. -/
def envTwoPolls : VideoEnv :=
  { submit := Except.ok { done := false, videoUri := none }
    poll := fun n =>
      if n = 0 then Except.ok { done := false, videoUri := none }
      else Except.ok { done := true, videoUri := some "https://video.example/route.mp4" } }

/-- Environment whose operation never completes. -/
def envStuck : VideoEnv :=
  { submit := Except.ok { done := false, videoUri := none }
    poll := fun _ => Except.ok { done := false, videoUri := none } }

/-! ## Scanner lemmas -/

theorem matchLit_self (lit r : List Char) : matchLit lit (lit ++ r) = some r := by
  induction lit with
  | nil => rfl
  | cons a as ih => simp [matchLit, ih]

theorem matchLit_some_eq {lit l r : List Char} (h : matchLit lit l = some r) :
    l = lit ++ r := by
  induction lit generalizing l with
  | nil => simpa [matchLit] using h
  | cons a as ih =>
    cases l with
    | nil => simp [matchLit] at h
    | cons c cs =>
      by_cases hac : a = c
      · subst hac
        simp only [matchLit, if_pos rfl] at h
        simp [ih h]
      · simp [matchLit, hac] at h

theorem takeWhile_run {p : Char → Bool} {run rest : List Char}
    (hall : ∀ c ∈ run, p c = true)
    (hstop : ∀ c, rest.head? = some c → p c = false) :
    (run ++ rest).takeWhile p = run := by
  induction run with
  | nil =>
    cases rest with
    | nil => rfl
    | cons c r => simp [List.takeWhile_cons, hstop c rfl]
  | cons a as ih =>
    have ha : p a = true := hall a (by simp)
    simp [List.takeWhile_cons, ha, ih (fun c hc => hall c (by simp [hc]))]

theorem dropWhile_run {p : Char → Bool} {run rest : List Char}
    (hall : ∀ c ∈ run, p c = true)
    (hstop : ∀ c, rest.head? = some c → p c = false) :
    (run ++ rest).dropWhile p = rest := by
  induction run with
  | nil =>
    cases rest with
    | nil => rfl
    | cons c r => simp [List.dropWhile_cons, hstop c rfl]
  | cons a as ih =>
    have ha : p a = true := hall a (by simp)
    simp [List.dropWhile_cons, ha, ih (fun c hc => hall c (by simp [hc]))]

theorem takeWhile1_exact {p : Char → Bool} {run rest : List Char}
    (hne : run ≠ []) (hall : ∀ c ∈ run, p c = true)
    (hstop : ∀ c, rest.head? = some c → p c = false) :
    takeWhile1 p (run ++ rest) = some (run, rest) := by
  unfold takeWhile1
  rw [takeWhile_run hall hstop, dropWhile_run hall hstop]
  simp [hne]

theorem takeWhile1_some_eq {p : Char → Bool} {l v r : List Char}
    (h : takeWhile1 p l = some (v, r)) : l = v ++ r ∧ v ≠ [] := by
  unfold takeWhile1 at h
  by_cases he : (l.takeWhile p).isEmpty
  · simp [he] at h
  · simp only [he, Bool.false_eq_true, if_false, Option.some.injEq, Prod.mk.injEq] at h
    obtain ⟨hv, hr⟩ := h
    subst hv; subst hr
    refine ⟨(List.takeWhile_append_dropWhile p l).symm, ?_⟩
    simpa [List.isEmpty_iff] using he

theorem matchAttr_build (nm : List Char) {la rest : List Char} {c0 : Char} (hnm : nm.head? = some c0)
    (hc0 : jsWhitespace c0 = false) (hla : la ≠ []) (hq : ∀ c ∈ la, (c != '"') = true) :
    matchAttr nm (' ' :: (nm ++ (la ++ '"' :: rest))) = some (la, rest) := by
  have hws : takeWhile1 jsWhitespace ([' '] ++ (nm ++ (la ++ '"' :: rest))) =
      some ([' '], nm ++ (la ++ '"' :: rest)) := by
    refine takeWhile1_exact (by simp) (fun c hc => ?_) (fun c hc => ?_)
    · simp at hc
      subst hc
      decide
    · cases nm with
      | nil => simp at hnm
      | cons a as =>
        simp at hnm hc
        subst hnm
        subst hc
        exact hc0
  have hval : takeWhile1 (fun c => c != '"') (la ++ '"' :: rest) =
      some (la, '"' :: rest) := by
    refine takeWhile1_exact hla hq (fun c hc => ?_)
    simp at hc
    subst hc
    decide
  unfold matchAttr
  rw [show (' ' :: (nm ++ (la ++ '"' :: rest))) = [' '] ++ (nm ++ (la ++ '"' :: rest)) from rfl]
  simp only [hws, matchLit_self, hval]

theorem matchAttr_some_len {nm l v r : List Char} (h : matchAttr nm l = some (v, r)) :
    r.length < l.length := by
  unfold matchAttr at h
  cases h1 : takeWhile1 jsWhitespace l with
  | none => simp only [h1] at h; exact Option.noConfusion h
  | some p1 =>
    obtain ⟨w, r1⟩ := p1
    simp only [h1] at h
    obtain ⟨hl1, hw⟩ := takeWhile1_some_eq h1
    cases h2 : matchLit nm r1 with
    | none => simp only [h2] at h; exact Option.noConfusion h
    | some r2 =>
      simp only [h2] at h
      have hl2 := matchLit_some_eq h2
      cases h3 : takeWhile1 (fun c => c != '"') r2 with
      | none => simp only [h3] at h; exact Option.noConfusion h
      | some p3 =>
        obtain ⟨v3, r3⟩ := p3
        simp only [h3] at h
        obtain ⟨hl3, _⟩ := takeWhile1_some_eq h3
        cases r3 with
        | nil => simp at h
        | cons c r4 =>
          by_cases hc : c = '"'
          · subst hc
            simp only [Option.some.injEq, Prod.mk.injEq] at h
            obtain ⟨_, hr⟩ := h
            subst hr
            subst hl1; subst hl2; subst hl3
            have hwlen : w.length ≠ 0 := by simpa [List.length_eq_zero] using hw
            simp only [List.length_append, List.length_cons]
            omega
          · cases c
            simp_all

theorem matchTrkpt_marker {la lo : List Char} (rest : List Char)
    (hla : la ≠ []) (hlo : lo ≠ [])
    (hqa : ∀ c ∈ la, (c != '"') = true) (hqb : ∀ c ∈ lo, (c != '"') = true) :
    matchTrkpt (mkTrkptL la lo ++ rest) = some (la, lo, '/' :: '>' :: rest) := by
  have hshape : mkTrkptL la lo ++ rest =
      "<trkpt".toList ++ (' ' :: ("lat=\"".toList ++ (la ++ '"' ::
        (' ' :: ("lon=\"".toList ++ (lo ++ '"' :: ('/' :: '>' :: rest))))))) := by
    simp [mkTrkptL]
  unfold matchTrkpt
  rw [hshape]
  simp only [matchLit_self,
    matchAttr_build "lat=\"".toList rfl (by decide) hla hqa,
    matchAttr_build "lon=\"".toList rfl (by decide) hlo hqb]

theorem matchTrkpt_cons_none {c : Char} (l : List Char) (h : c ≠ '<') :
    matchTrkpt (c :: l) = none := by
  unfold matchTrkpt
  have hne : ¬ ('<' = c) := fun he => h he.symm
  have hlit : matchLit "<trkpt".toList (c :: l) = none := by
    show (if '<' = c then matchLit "trkpt".toList l else none) = none
    rw [if_neg hne]
  simp only [hlit]

theorem matchTrkpt_nil : matchTrkpt [] = none := rfl

theorem matchTrkpt_some_len {l : List Char} {a b r : List Char}
    (h : matchTrkpt l = some (a, b, r)) : r.length < l.length := by
  unfold matchTrkpt at h
  cases h1 : matchLit "<trkpt".toList l with
  | none => simp only [h1] at h; exact Option.noConfusion h
  | some r1 =>
    simp only [h1] at h
    have hl1 := matchLit_some_eq h1
    cases h2 : matchAttr "lat=\"".toList r1 with
    | none => simp only [h2] at h; exact Option.noConfusion h
    | some p2 =>
      obtain ⟨v2, r2⟩ := p2
      simp only [h2] at h
      have hl2 := matchAttr_some_len h2
      cases h3 : matchAttr "lon=\"".toList r2 with
      | none => simp only [h3] at h; exact Option.noConfusion h
      | some p3 =>
        obtain ⟨v3, r3⟩ := p3
        simp only [h3] at h
        have hl3 := matchAttr_some_len h3
        simp only [Option.some.injEq, Prod.mk.injEq] at h
        obtain ⟨_, _, hr⟩ := h
        subst hr
        subst hl1
        simp only [List.length_append]
        omega

theorem scanGpxAux_congr :
    ∀ n m l, l.length ≤ n → l.length ≤ m → scanGpxAux n l = scanGpxAux m l := by
  intro n
  induction n with
  | zero =>
    intro m l hn _
    have : l = [] := List.length_eq_zero.mp (Nat.le_zero.mp hn)
    subst this
    cases m <;> rfl
  | succ n ih =>
    intro m l hn hm
    cases l with
    | nil => cases m <;> rfl
    | cons c rest =>
      cases m with
      | zero => simp at hm
      | succ m' =>
        simp only [List.length_cons, Nat.succ_le_succ_iff] at hn hm
        show scanGpxAux (n + 1) (c :: rest) = scanGpxAux (m' + 1) (c :: rest)
        cases hmt : matchTrkpt (c :: rest) with
        | none =>
          simp only [scanGpxAux, hmt]
          exact ih m' rest hn hm
        | some p =>
          obtain ⟨a, b, r⟩ := p
          have hr : r.length ≤ rest.length := by
            have := matchTrkpt_some_len hmt
            simp only [List.length_cons] at this
            omega
          simp only [scanGpxAux, hmt]
          exact congrArg _ (ih m' r (hr.trans hn) (hr.trans hm))

theorem scanGpx_match_some {l a b r : List Char} (h : matchTrkpt l = some (a, b, r)) :
    scanGpx l = (a, b) :: scanGpx r := by
  cases l with
  | nil => rw [matchTrkpt_nil] at h; exact Option.noConfusion h
  | cons c rest =>
    have hr : r.length ≤ rest.length := by
      have := matchTrkpt_some_len h
      simp only [List.length_cons] at this
      omega
    show scanGpxAux (rest.length + 1) (c :: rest) = _
    simp only [scanGpxAux, h]
    exact congrArg _ (scanGpxAux_congr rest.length r.length r hr le_rfl)

theorem scanGpx_cons_junk {c : Char} (l : List Char) (h : c ≠ '<') :
    scanGpx (c :: l) = scanGpx l := by
  show scanGpxAux (l.length + 1) (c :: l) = _
  simp only [scanGpxAux, matchTrkpt_cons_none l h]
  rfl

theorem scanGpx_append_junk {junk : List Char} (l : List Char)
    (h : ∀ c ∈ junk, c ≠ '<') : scanGpx (junk ++ l) = scanGpx l := by
  induction junk with
  | nil => rfl
  | cons c j ih =>
    rw [List.cons_append, scanGpx_cons_junk _ (h c (by simp)),
      ih (fun d hd => h d (by simp [hd]))]

theorem scanGpx_nil : scanGpx [] = [] := rfl

theorem scanGpx_junk (junk : List Char) (h : ∀ c ∈ junk, c ≠ '<') :
    scanGpx junk = [] := by
  have := @scanGpx_append_junk junk [] h
  simpa using this

theorem scanGpx_marker {la lo : List Char} (rest : List Char)
    (hla : la ≠ []) (hlo : lo ≠ [])
    (hqa : ∀ c ∈ la, (c != '"') = true) (hqb : ∀ c ∈ lo, (c != '"') = true) :
    scanGpx (mkTrkptL la lo ++ rest) = (la, lo) :: scanGpx rest := by
  rw [scanGpx_match_some (matchTrkpt_marker rest hla hlo hqa hqb),
    scanGpx_cons_junk _ (by decide), scanGpx_cons_junk _ (by decide)]

theorem scanGpx_markers {pts : List (List Char × List Char)} {sep : List Char}
    (rest : List Char) (hsep : ∀ c ∈ sep, c ≠ '<')
    (hpts : ∀ p ∈ pts, p.1 ≠ [] ∧ p.2 ≠ [] ∧
      (∀ c ∈ p.1, (c != '"') = true) ∧ (∀ c ∈ p.2, (c != '"') = true)) :
    scanGpx (gpxMarkers pts sep ++ rest) = pts ++ scanGpx rest := by
  induction pts with
  | nil => simp [gpxMarkers]
  | cons p ps ih =>
    obtain ⟨h1, h2, h3, h4⟩ := hpts p (by simp)
    rw [gpxMarkers]
    rw [show (mkTrkptL p.1 p.2 ++ sep ++ gpxMarkers ps sep) ++ rest =
      mkTrkptL p.1 p.2 ++ (sep ++ (gpxMarkers ps sep ++ rest)) by simp,
      scanGpx_marker _ h1 h2 h3 h4, scanGpx_append_junk _ hsep,
      ih (fun q hq => hpts q (by simp [hq]))]
    rfl

theorem parseGpx_gpxDoc {pre sep post : List Char} {pts : List (List Char × List Char)}
    (hpre : ∀ c ∈ pre, c ≠ '<') (hsep : ∀ c ∈ sep, c ≠ '<')
    (hpost : ∀ c ∈ post, c ≠ '<')
    (hpts : ∀ p ∈ pts, p.1 ≠ [] ∧ p.2 ≠ [] ∧
      (∀ c ∈ p.1, (c != '"') = true) ∧ (∀ c ∈ p.2, (c != '"') = true))
    (hne : pts ≠ []) :
    parseGpx (gpxDoc pre pts sep post) = Except.ok (pts.map coordOfCaptures) := by
  have hscan : scanGpx (pre ++ (gpxMarkers pts sep ++ post)) = pts := by
    rw [scanGpx_append_junk _ hpre, scanGpx_markers _ hsep hpts,
      scanGpx_junk post hpost, List.append_nil]
  have hlist : (gpxDoc pre pts sep post).toList = pre ++ (gpxMarkers pts sep ++ post) := by
    simp [gpxDoc]
  have hco : gpxCoordinates (gpxDoc pre pts sep post).toList = pts.map coordOfCaptures := by
    unfold gpxCoordinates coordOfCaptures
    rw [hlist, hscan]
  have hlen : (pts.map coordOfCaptures).length = pts.length := List.length_map _ _
  have hnz : pts.length ≠ 0 := by simpa [List.length_eq_zero] using hne
  unfold parseGpx
  rw [hco]
  simp [hlen, hnz]

/-- **C1**.  A GPX text consisting of N well-formed trkpt markers (each
with a non-empty, quote-free `lat` then `lon` attribute, both parsing to
numeric values), surrounded and separated by arbitrary angle-bracket-free
filler, parses to exactly N coordinates in document order, the i-th
carrying `parseFloat` of the i-th marker's `lat` and `lon` attribute
text. -/
theorem gpx_wellformed_markers_parse (pre sep post : List Char)
    (pts : List (List Char × List Char))
    (hpre : ∀ c ∈ pre, c ≠ '<') (hsep : ∀ c ∈ sep, c ≠ '<')
    (hpost : ∀ c ∈ post, c ≠ '<')
    (hpts : ∀ p ∈ pts, p.1 ≠ [] ∧ p.2 ≠ [] ∧
      (∀ c ∈ p.1, (c != '"') = true) ∧ (∀ c ∈ p.2, (c != '"') = true))
    (hnum : ∀ p ∈ pts, jsIsNaN (parseFloat p.1) = false ∧
      jsIsNaN (parseFloat p.2) = false)
    (hne : pts ≠ []) :
    parseGpx (gpxDoc pre pts sep post) = Except.ok (pts.map coordOfCaptures) ∧
    (pts.map coordOfCaptures).length = pts.length :=
  ⟨parseGpx_gpxDoc hpre hsep hpost hpts hne, List.length_map _ _⟩

/-- Witness for C1: a two-marker document (the spec's own example values)
parses to its two coordinates in order. -/
theorem gpx_wellformed_markers_parse_witness :
    parseGpx (gpxDoc "gpx header ".toList
        [("45.0".toList, "7.5".toList), ("45.1".toList, "7.6".toList)]
        " | ".toList " end".toList) =
      Except.ok ([("45.0".toList, "7.5".toList),
        ("45.1".toList, "7.6".toList)].map coordOfCaptures) ∧
    ([("45.0".toList, "7.5".toList),
        ("45.1".toList, "7.6".toList)].map coordOfCaptures).length =
      [("45.0".toList, "7.5".toList), ("45.1".toList, "7.6".toList)].length :=
  gpx_wellformed_markers_parse _ _ _ _
    (by decide) (by decide) (by decide) (by decide) (by decide) (by decide)

/-- **C10**.  `parseGpx` never filters a marker the regex matches: with no
numeric-validity assumption at all on the attribute text, every matched
marker still contributes exactly one coordinate (counted toward the
non-emptiness check), and non-numeric attribute text such as `"abc"`
yields a `NaN` component rather than a dropped marker. -/
theorem gpx_marker_never_skipped (pre sep post : List Char)
    (pts : List (List Char × List Char))
    (hpre : ∀ c ∈ pre, c ≠ '<') (hsep : ∀ c ∈ sep, c ≠ '<')
    (hpost : ∀ c ∈ post, c ≠ '<')
    (hpts : ∀ p ∈ pts, p.1 ≠ [] ∧ p.2 ≠ [] ∧
      (∀ c ∈ p.1, (c != '"') = true) ∧ (∀ c ∈ p.2, (c != '"') = true))
    (hne : pts ≠ []) :
    parseGpx (gpxDoc pre pts sep post) = Except.ok (pts.map coordOfCaptures) ∧
    (pts.map coordOfCaptures).length = pts.length ∧
    parseFloat "abc".toList = JsNum.nan :=
  ⟨parseGpx_gpxDoc hpre hsep hpost hpts hne, List.length_map _ _, by decide⟩

/-- Witness for C10: a single marker with the non-numeric latitude text
`abc` still parses to one coordinate (whose latitude is `NaN`) instead of
raising the no-track-points error. -/
theorem gpx_marker_never_skipped_witness :
    parseGpx (gpxDoc [] [("abc".toList, "7.5".toList)] [] []) =
      Except.ok ([("abc".toList, "7.5".toList)].map coordOfCaptures) ∧
    ([("abc".toList, "7.5".toList)].map coordOfCaptures).length =
      [("abc".toList, "7.5".toList)].length ∧
    parseFloat "abc".toList = JsNum.nan :=
  gpx_marker_never_skipped _ _ _ _
    (by decide) (by decide) (by decide) (by decide) (by decide)

theorem matchCoordBlock_build {c : List Char} (rest : List Char)
    (hne : c ≠ []) (hlt : ∀ ch ∈ c, (ch != '<') = true) :
    matchCoordBlock (wrapCoords c ++ rest) = some (c, rest) := by
  have hshape : wrapCoords c ++ rest =
      "<coordinates>".toList ++ (c ++ ("</coordinates>".toList ++ rest)) := by
    simp [wrapCoords]
  have hval : takeWhile1 (fun ch => ch != '<') (c ++ ("</coordinates>".toList ++ rest)) =
      some (c, "</coordinates>".toList ++ rest) := by
    refine takeWhile1_exact hne hlt (fun ch hch => ?_)
    have : ch = '<' := by
      have : ("</coordinates>".toList ++ rest).head? = some '<' := rfl
      rw [this] at hch
      exact (Option.some.injEq _ _ ▸ hch).symm
    simp [this]
  unfold matchCoordBlock
  rw [hshape]
  simp only [matchLit_self, hval]

theorem matchCoordBlock_cons_none {x : Char} (l : List Char) (h : x ≠ '<') :
    matchCoordBlock (x :: l) = none := by
  unfold matchCoordBlock
  have hne : ¬ ('<' = x) := fun he => h he.symm
  have hlit : matchLit "<coordinates>".toList (x :: l) = none := by
    show (if '<' = x then matchLit "coordinates>".toList l else none) = none
    rw [if_neg hne]
  simp only [hlit]

theorem findCoordBlock_match_some {l v r : List Char}
    (h : matchCoordBlock l = some (v, r)) : findCoordBlock l = some v := by
  cases l with
  | nil => exact Option.noConfusion h
  | cons x t =>
    show (match matchCoordBlock (x :: t) with
      | some (v, _) => some v
      | none => findCoordBlock t) = some v
    rw [h]

theorem findCoordBlock_append_junk {junk : List Char} (l : List Char)
    (h : ∀ c ∈ junk, c ≠ '<') : findCoordBlock (junk ++ l) = findCoordBlock l := by
  induction junk with
  | nil => rfl
  | cons x j ih =>
    rw [List.cons_append]
    show (match matchCoordBlock (x :: (j ++ l)) with
      | some (v, _) => some v
      | none => findCoordBlock (j ++ l)) = findCoordBlock l
    rw [matchCoordBlock_cons_none _ (h x (by simp))]
    exact ih (fun d hd => h d (by simp [hd]))

theorem findCoordBlock_at {c : List Char} (rest : List Char)
    (hne : c ≠ []) (hlt : ∀ ch ∈ c, (ch != '<') = true) :
    findCoordBlock (wrapCoords c ++ rest) = some c :=
  findCoordBlock_match_some (matchCoordBlock_build rest hne hlt)

theorem wsSplitAux_token {tok : List Char} (acc l : List Char)
    (h : ∀ c ∈ tok, jsWhitespace c = false) :
    wsSplitAux acc false (tok ++ l) = wsSplitAux (tok.reverse ++ acc) false l := by
  induction tok generalizing acc with
  | nil => rfl
  | cons c t ih =>
    have hc : jsWhitespace c = false := h c (by simp)
    rw [List.cons_append]
    show wsSplitAux acc false (c :: (t ++ l)) = _
    simp only [wsSplitAux, hc, Bool.false_eq_true, if_false]
    rw [ih (c :: acc) (fun d hd => h d (by simp [hd]))]
    simp

theorem wsSplitAux_true_head {c : Char} (l : List Char) (hc : jsWhitespace c = false) :
    wsSplitAux [] true (c :: l) = wsSplitAux [] false (c :: l) := by
  simp [wsSplitAux, hc]

theorem icSpace_single (t : List Char) : icSpace [t] = t := rfl

theorem icSpace_cons_cons (t t' : List Char) (ts : List (List Char)) :
    icSpace (t :: t' :: ts) = t ++ ' ' :: icSpace (t' :: ts) := rfl

theorem icSpace_head_cons {t : List Char} (ts : List (List Char)) (h : t ≠ []) :
    ∃ c Y, icSpace (t :: ts) = c :: Y ∧ c ∈ t := by
  cases t with
  | nil => exact absurd rfl h
  | cons c t'' =>
    cases ts with
    | nil => exact ⟨c, t'', rfl, by simp⟩
    | cons t' ts' => exact ⟨c, t'' ++ ' ' :: icSpace (t' :: ts'), rfl, by simp⟩

theorem wsSplit_icSpace :
    ∀ toks : List (List Char), toks ≠ [] →
    (∀ t ∈ toks, t ≠ [] ∧ ∀ c ∈ t, jsWhitespace c = false) →
    wsSplitAux [] false (icSpace toks) = toks := by
  intro toks
  induction toks with
  | nil => intro h; exact absurd rfl h
  | cons t ts ih =>
    intro _ hall
    obtain ⟨htne, htws⟩ := hall t (by simp)
    cases ts with
    | nil =>
      rw [icSpace_single, show t = t ++ ([] : List Char) by simp,
        wsSplitAux_token _ _ htws]
      simp [wsSplitAux]
    | cons t' ts' =>
      rw [icSpace_cons_cons, wsSplitAux_token _ _ htws]
      show wsSplitAux (t.reverse ++ []) false (' ' :: icSpace (t' :: ts')) = t :: t' :: ts'
      have hsp : jsWhitespace ' ' = true := by decide
      simp only [wsSplitAux, hsp, if_true, List.append_nil, List.reverse_reverse]
      obtain ⟨c, Y, hY, hcY⟩ := icSpace_head_cons ts' (hall t' (by simp)).1
      have hc : jsWhitespace c = false := (hall t' (by simp)).2 c hcY
      rw [hY, wsSplitAux_true_head _ hc, ← hY,
        ih (by simp) (fun u hu => hall u (by simp [hu]))]
      simp

theorem icSpace_no_lt {toks : List (List Char)}
    (h : ∀ t ∈ toks, ∀ c ∈ t, (c != '<') = true) :
    ∀ ch ∈ icSpace toks, (ch != '<') = true := by
  induction toks with
  | nil => intro ch hch; simp [icSpace] at hch
  | cons t ts ih =>
    intro ch hch
    cases ts with
    | nil =>
      rw [icSpace_single] at hch
      exact h t (by simp) ch hch
    | cons t' ts' =>
      rw [icSpace_cons_cons] at hch
      rcases List.mem_append.mp hch with hin | hin
      · exact h t (by simp) ch hin
      · rcases List.mem_cons.mp hin with rfl | hin'
        · decide
        · exact ih (fun u hu c hc => h u (by simp [hu]) c hc) ch hin'

theorem icSpace_rev {toks : List (List Char)} (hne : toks ≠ [])
    (h : ∀ t ∈ toks, t ≠ [] ∧ ∀ c ∈ t, jsWhitespace c = false) :
    ∃ ch r, (icSpace toks).reverse = ch :: r ∧ jsWhitespace ch = false := by
  induction toks with
  | nil => exact absurd rfl hne
  | cons t ts ih =>
    cases ts with
    | nil =>
      obtain ⟨htne, htws⟩ := h t (by simp)
      rw [icSpace_single]
      cases hrev : t.reverse with
      | nil => exact absurd (by simpa using hrev) htne
      | cons c r =>
        refine ⟨c, r, rfl, htws c ?_⟩
        have : c ∈ t.reverse := by simp [hrev]
        simpa using this
    | cons t' ts' =>
      obtain ⟨c, r, hr, hc⟩ := ih (by simp) (fun u hu => h u (by simp [hu]))
      refine ⟨c, r ++ (' ' :: t.reverse : List Char), ?_, hc⟩
      rw [icSpace_cons_cons, List.reverse_append, List.reverse_cons, hr]
      simp

theorem jsTrim_icSpace {toks : List (List Char)} (hne : toks ≠ [])
    (h : ∀ t ∈ toks, t ≠ [] ∧ ∀ c ∈ t, jsWhitespace c = false) :
    jsTrim (icSpace toks) = icSpace toks := by
  cases toks with
  | nil => exact absurd rfl hne
  | cons t ts =>
    obtain ⟨c, Y, hY, hcY⟩ := icSpace_head_cons ts (h t (by simp)).1
    have hc : jsWhitespace c = false := (h t (by simp)).2 c hcY
    have hdrop : (icSpace (t :: ts)).dropWhile jsWhitespace = icSpace (t :: ts) := by
      rw [hY, List.dropWhile_cons, hc]
      simp
    obtain ⟨d, r, hrev, hd⟩ := @icSpace_rev (t :: ts) (by simp) h
    unfold jsTrim
    rw [hdrop, hrev, List.dropWhile_cons, hd]
    simp [← hrev]

theorem parseGpx_def (s : String) :
    parseGpx s =
      if (gpxCoordinates s.toList).length = 0
      then Except.error "No track points found in GPX file."
      else Except.ok (gpxCoordinates s.toList) := rfl

theorem parseKml_def (s : String) :
    parseKml s =
      if (kmlExtract s.toList).length = 0
      then Except.error "No coordinates found in KML file."
      else Except.ok (kmlExtract s.toList) := rfl

theorem kmlExtract_kmlDoc {pre post : List Char} {toks : List (List Char)}
    (hpre : ∀ c ∈ pre, c ≠ '<') (hne : toks ≠ [])
    (ht : ∀ t ∈ toks, t ≠ [] ∧ (∀ c ∈ t, jsWhitespace c = false) ∧
      (∀ c ∈ t, (c != '<') = true)) :
    kmlExtract (kmlDoc pre toks post).toList = toks.filterMap parseKmlToken := by
  have hlist : (kmlDoc pre toks post).toList =
      pre ++ (wrapCoords (icSpace toks) ++ post) := by
    simp [kmlDoc]
  have hcne : icSpace toks ≠ [] := by
    cases toks with
    | nil => exact absurd rfl hne
    | cons t ts =>
      obtain ⟨c, Y, hY, _⟩ := icSpace_head_cons ts (ht t (by simp)).1
      simp [hY]
  have hclt : ∀ ch ∈ icSpace toks, (ch != '<') = true :=
    icSpace_no_lt (fun t htk c hc => (ht t htk).2.2 c hc)
  have hfind : findCoordBlock (kmlDoc pre toks post).toList = some (icSpace toks) := by
    rw [hlist, findCoordBlock_append_junk _ hpre, findCoordBlock_at post hcne hclt]
  have hempty : (icSpace toks).isEmpty = false := by
    simpa [List.isEmpty_iff] using hcne
  have hshape : ∀ t ∈ toks, t ≠ [] ∧ ∀ c ∈ t, jsWhitespace c = false :=
    fun t htk => ⟨(ht t htk).1, (ht t htk).2.1⟩
  unfold kmlExtract
  simp only [hfind, hempty, Bool.false_eq_true, if_false,
    jsTrim_icSpace hne hshape]
  show (wsSplitAux [] false (icSpace toks)).filterMap parseKmlToken = _
  rw [wsSplit_icSpace toks hne hshape]

theorem parseKml_kmlDoc {pre post : List Char} {toks : List (List Char)}
    (hpre : ∀ c ∈ pre, c ≠ '<') (hne : toks ≠ [])
    (ht : ∀ t ∈ toks, t ≠ [] ∧ (∀ c ∈ t, jsWhitespace c = false) ∧
      (∀ c ∈ t, (c != '<') = true)) :
    parseKml (kmlDoc pre toks post) =
      if (toks.filterMap parseKmlToken).length = 0
      then Except.error "No coordinates found in KML file."
      else Except.ok (toks.filterMap parseKmlToken) := by
  rw [parseKml_def, kmlExtract_kmlDoc hpre hne ht]

theorem filterMap_parseKmlToken_all_valid :
    ∀ toks : List (List Char),
    (∀ t ∈ toks, jsIsNaN (kmlTokLon t) = false ∧ jsIsNaN (kmlTokLat t) = false) →
    toks.filterMap parseKmlToken = toks.map coordOfToken := by
  intro toks hv
  induction toks with
  | nil => rfl
  | cons t ts ih =>
    obtain ⟨h1, h2⟩ := hv t (by simp)
    have hsome : parseKmlToken t = some (coordOfToken t) := by
      unfold parseKmlToken coordOfToken
      rw [h1, h2]
      simp
    rw [List.filterMap_cons, List.map_cons, hsome,
      ih (fun u hu => hv u (by simp [hu]))]

/-- **C2**.  A KML text whose (single) coordinates block holds N tokens,
each a `lon,lat[,alt]` string whose first two comma components convert to
numeric values, parses to exactly N coordinates in token order; each
coordinate takes its latitude from the token's *second* comma component
and its longitude from the *first* (swapped from the token order), and any
altitude component is discarded (`coordOfToken` never consults components
past the second). -/
theorem kml_valid_tokens_parse (pre post : List Char) (toks : List (List Char))
    (hpre : ∀ c ∈ pre, c ≠ '<') (hne : toks ≠ [])
    (ht : ∀ t ∈ toks, t ≠ [] ∧ (∀ c ∈ t, jsWhitespace c = false) ∧
      (∀ c ∈ t, (c != '<') = true))
    (hv : ∀ t ∈ toks, jsIsNaN (kmlTokLon t) = false ∧ jsIsNaN (kmlTokLat t) = false) :
    parseKml (kmlDoc pre toks post) = Except.ok (toks.map coordOfToken) ∧
    (toks.map coordOfToken).length = toks.length := by
  have hfm := filterMap_parseKmlToken_all_valid toks hv
  have hnz : toks.length ≠ 0 := by simpa [List.length_eq_zero] using hne
  refine ⟨?_, List.length_map _ _⟩
  rw [parseKml_kmlDoc hpre hne ht, hfm, List.length_map, if_neg hnz]

/-- Witness for C2: the spec's own example
`<coordinates>7.5,45.0,0 7.6,45.1,0</coordinates>` yields the two
coordinates in order, latitudes from the second components. -/
theorem kml_valid_tokens_parse_witness :
    parseKml (kmlDoc "kml text ".toList
        ["7.5,45.0,0".toList, "7.6,45.1,0".toList] " rest".toList) =
      Except.ok (["7.5,45.0,0".toList, "7.6,45.1,0".toList].map coordOfToken) ∧
    (["7.5,45.0,0".toList, "7.6,45.1,0".toList].map coordOfToken).length =
      ["7.5,45.0,0".toList, "7.6,45.1,0".toList].length :=
  kml_valid_tokens_parse _ _ _ (by decide) (by decide) (by decide) (by decide)

/-- **C9**.  In `parseKml`, a token of the (first) coordinates block whose
longitude or latitude component fails numeric conversion contributes
nothing and raises no error (the result is the `filterMap` of the token
list, with the error only when *every* token is dropped), while a token
whose first two components both convert contributes exactly one
coordinate; in particular the edge-case token `"7.5,"` is kept, its empty
second component converting to `0` rather than failing, while a
non-numeric token such as `"abc,1"` is silently dropped. -/
theorem kml_invalid_tokens_dropped (pre post : List Char) (toks : List (List Char))
    (hpre : ∀ c ∈ pre, c ≠ '<') (hne : toks ≠ [])
    (ht : ∀ t ∈ toks, t ≠ [] ∧ (∀ c ∈ t, jsWhitespace c = false) ∧
      (∀ c ∈ t, (c != '<') = true)) :
    parseKml (kmlDoc pre toks post) =
      (if (toks.filterMap parseKmlToken).length = 0
       then Except.error "No coordinates found in KML file."
       else Except.ok (toks.filterMap parseKmlToken)) ∧
    parseKmlToken "7.5,".toList = some ⟨JsNum.val 0, JsNum.val (15 / 2)⟩ ∧
    parseKmlToken "abc,1".toList = none :=
  ⟨parseKml_kmlDoc hpre hne ht, by with_unfolding_all rfl, by decide⟩

/-- Witness for C9: a block mixing a valid token, a dropped non-numeric
token and the `"7.5,"` edge case parses to exactly the two surviving
coordinates, without error. -/
theorem kml_invalid_tokens_dropped_witness :
    parseKml (kmlDoc [] ["7.5,45.0".toList, "abc,1".toList, "7.5,".toList] []) =
      (if ((["7.5,45.0".toList, "abc,1".toList,
          "7.5,".toList]).filterMap parseKmlToken).length = 0
       then Except.error "No coordinates found in KML file."
       else Except.ok ((["7.5,45.0".toList, "abc,1".toList,
          "7.5,".toList]).filterMap parseKmlToken)) ∧
    parseKmlToken "7.5,".toList = some ⟨JsNum.val 0, JsNum.val (15 / 2)⟩ ∧
    parseKmlToken "abc,1".toList = none :=
  kml_invalid_tokens_dropped _ _ _ (by decide) (by decide) (by decide)

/-- **C8**.  With two (or more) well-formed coordinates blocks in the
input, `parseKml` computes its whole result from the first block alone:
the text after that block — the second block `c2` included — can be
replaced by anything without changing the output, so coordinates occurring
only in later blocks never reach the output. -/
theorem kml_first_block_only (pre mid post c1 c2 : List Char)
    (hpre : ∀ ch ∈ pre, ch ≠ '<') (hne : c1 ≠ [])
    (hlt : ∀ ch ∈ c1, (ch != '<') = true) :
    parseKml (String.mk (pre ++ wrapCoords c1 ++ mid ++ wrapCoords c2 ++ post)) =
      parseKml (String.mk (wrapCoords c1)) := by
  have h1 : findCoordBlock (pre ++ wrapCoords c1 ++ mid ++ wrapCoords c2 ++ post) =
      some c1 := by
    rw [show pre ++ wrapCoords c1 ++ mid ++ wrapCoords c2 ++ post =
        pre ++ (wrapCoords c1 ++ (mid ++ (wrapCoords c2 ++ post))) by simp,
      findCoordBlock_append_junk _ hpre, findCoordBlock_at _ hne hlt]
  have h2 : findCoordBlock (wrapCoords c1) = some c1 := by
    have h := @findCoordBlock_at c1 [] hne hlt
    simpa using h
  rw [parseKml_def, parseKml_def]
  unfold kmlExtract
  have hl1 : (String.mk (pre ++ wrapCoords c1 ++ mid ++ wrapCoords c2 ++ post)).toList =
      pre ++ wrapCoords c1 ++ mid ++ wrapCoords c2 ++ post := rfl
  have hl2 : (String.mk (wrapCoords c1)).toList = wrapCoords c1 := rfl
  rw [hl1, hl2, h1, h2]

/-- Witness for C8: with the blocks `1,2` and `3,4` present, replacing
everything after the first block changes nothing — the parse equals that
of the first block alone. -/
theorem kml_first_block_only_witness :
    parseKml (String.mk ([] ++ wrapCoords "1,2".toList ++ [] ++
        wrapCoords "3,4".toList ++ [])) =
      parseKml (String.mk (wrapCoords "1,2".toList)) :=
  kml_first_block_only [] [] [] "1,2".toList "3,4".toList
    (by decide) (by decide) (by decide)

/-- **C4**.  Neither parser can return an empty sequence: an `ok` result
always holds at least one coordinate, and whenever extraction finds zero
coordinates the parser instead throws the error naming the format it
attempted (the GPX message contains "GPX", the KML message contains
"KML"). -/
theorem parsers_reject_empty (s : String) :
    (∀ l, parseGpx s = Except.ok l → 1 ≤ l.length) ∧
    (∀ l, parseKml s = Except.ok l → 1 ≤ l.length) ∧
    (gpxCoordinates s.toList = [] →
      parseGpx s = Except.error "No track points found in GPX file.") ∧
    (kmlExtract s.toList = [] →
      parseKml s = Except.error "No coordinates found in KML file.") ∧
    containsL "No track points found in GPX file.".toList "GPX".toList = true ∧
    containsL "No coordinates found in KML file.".toList "KML".toList = true := by
  refine ⟨?_, ?_, ?_, ?_, by decide, by decide⟩
  · intro l hl
    rw [parseGpx_def] at hl
    by_cases hz : (gpxCoordinates s.toList).length = 0
    · rw [if_pos hz] at hl
      exact Except.noConfusion hl
    · rw [if_neg hz] at hl
      injection hl with h
      subst h
      omega
  · intro l hl
    rw [parseKml_def] at hl
    by_cases hz : (kmlExtract s.toList).length = 0
    · rw [if_pos hz] at hl
      exact Except.noConfusion hl
    · rw [if_neg hz] at hl
      injection hl with h
      subst h
      omega
  · intro hz
    rw [parseGpx_def, hz]
    rfl
  · intro hz
    rw [parseKml_def, hz]
    rfl

/-- Witness for C4: a one-marker GPX text and a one-token KML text give
non-empty results, while pointless text gives each parser's format-naming
error. -/
theorem parsers_reject_empty_witness :
    1 ≤ [coordOfCaptures ("45.0".toList, "7.5".toList)].length ∧
    1 ≤ [coordOfToken "7.5,45.0".toList].length ∧
    parseGpx "hello" = Except.error "No track points found in GPX file." ∧
    parseKml "hello" = Except.error "No coordinates found in KML file." :=
  ⟨(parsers_reject_empty "<trkpt lat=\"45.0\" lon=\"7.5\"/>").1 _
      (by with_unfolding_all rfl),
   (parsers_reject_empty "<coordinates>7.5,45.0</coordinates>").2.1 _
      (by with_unfolding_all rfl),
   (parsers_reject_empty "hello").2.2.1 (by decide),
   (parsers_reject_empty "hello").2.2.2.1 (by decide)⟩

/-- When every re-query reports a not-done operation, the loop is still
running after any number of allowed iterations. -/
theorem pollLoop_stuck (poll : ℕ → Except Thrown Operation)
    (hp : ∀ n, ∃ op, poll n = Except.ok op ∧ op.done = false) :
    ∀ k op i, op.done = false → pollLoop poll k op i = none := by
  intro k
  induction k with
  | zero =>
    intro op i h
    simp [pollLoop, h]
  | succ n ih =>
    intro op i h
    obtain ⟨op', hop', hdone'⟩ := hp i
    simp [pollLoop, h, hop', ih op' (i + 1) hdone']

/-- **C3** (code_bug evidence).  A submission that immediately reports a
completed operation with no video download reference makes
`generateRouteVideo` surface the *generic* busy/error message — the
bespoke "completed but no result" message is thrown inside the `try` block
and swallowed by the function's own `catch` — so this failure is
observably identical to a transport/submission failure, contradicting the
claim that the two are distinct. -/
theorem completed_without_result_is_conflated :
    generateRouteVideo envNoResult 10 = some (Except.error genericFailMsg, 0) ∧
    generateRouteVideo envTransportFail 10 = some (Except.error genericFailMsg, 0) ∧
    genericFailMsg ≠ noLinkMsg := by
  refine ⟨rfl, rfl, by decide⟩

/-- **C5**.  A submission failure carrying an `Error` whose message
contains `"API key not valid"` surfaces the credential-specific message;
any other submission failure (an `Error` without that substring, or a
thrown non-`Error` value) surfaces the generic busy/error message.  In
either case no wait-and-requery iteration happens. -/
theorem submission_failure_messages (env : VideoEnv) (fuel : ℕ) :
    (∀ m, env.submit = Except.error (Thrown.jsError m) →
      containsL m.toList "API key not valid".toList = true →
      generateRouteVideo env fuel = some (Except.error apiKeyInvalidMsg, 0)) ∧
    (∀ m, env.submit = Except.error (Thrown.jsError m) →
      containsL m.toList "API key not valid".toList = false →
      generateRouteVideo env fuel = some (Except.error genericFailMsg, 0)) ∧
    (env.submit = Except.error Thrown.nonError →
      generateRouteVideo env fuel = some (Except.error genericFailMsg, 0)) := by
  refine ⟨?_, ?_, ?_⟩
  · intro m hsub hc
    simp only [String.toList] at hc
    simp [generateRouteVideo, tryBody, catchMsg, hsub, String.toList, hc]
  · intro m hsub hc
    simp only [String.toList] at hc
    simp [generateRouteVideo, tryBody, catchMsg, hsub, String.toList, hc]
  · intro hsub
    simp [generateRouteVideo, tryBody, catchMsg, hsub]

/-- Witness for C5: a concrete invalid-key failure surfaces the credential
message and a concrete network failure surfaces the generic message. -/
theorem submission_failure_messages_witness :
    generateRouteVideo envBadKey 3 = some (Except.error apiKeyInvalidMsg, 0) ∧
    generateRouteVideo envTransportFail 3 = some (Except.error genericFailMsg, 0) :=
  ⟨(submission_failure_messages envBadKey 3).1 _ rfl (by decide),
   (submission_failure_messages envTransportFail 3).2.1 _ rfl (by decide)⟩

/-- **C6**.  When the operation reports `done = false` at submission and at
the first re-query, and `done = true` at the second re-query, the polling
loop performs exactly two wait-and-requery iterations (each one
`sleep(10000)` followed by one `getVideosOperation` call) and then hands
the completed operation to result extraction. -/
theorem poll_loop_two_waits (env : VideoEnv) (op0 op1 op2 : Operation) (fuel : ℕ)
    (hs : env.submit = Except.ok op0) (h0 : op0.done = false)
    (hp0 : env.poll 0 = Except.ok op1) (h1 : op1.done = false)
    (hp1 : env.poll 1 = Except.ok op2) (h2 : op2.done = true)
    (hfuel : 2 ≤ fuel) :
    pollLoop env.poll fuel op0 0 = some (Except.ok op2, 2) ∧
    tryBody env fuel =
      some ((match op2.videoUri with
             | some uri => Except.ok uri
             | none => Except.error (Thrown.jsError noLinkMsg)), 2) := by
  obtain ⟨f, rfl⟩ : ∃ f, fuel = f + 2 := ⟨fuel - 2, by omega⟩
  have hloop : pollLoop env.poll (f + 2) op0 0 = some (Except.ok op2, 2) := by
    simp [pollLoop.eq_def, h0, h1, h2, hp0, hp1]
  refine ⟨hloop, ?_⟩
  simp only [tryBody, hs, hloop]
  cases op2.videoUri <;> rfl

/-- Witness for C6: the concrete twice-pending environment exits its loop
after exactly two iterations with the completed operation. -/
theorem poll_loop_two_waits_witness :
    pollLoop envTwoPolls.poll 10 { done := false, videoUri := none } 0 =
      some (Except.ok { done := true, videoUri := some "https://video.example/route.mp4" }, 2) :=
  (poll_loop_two_waits envTwoPolls
    { done := false, videoUri := none }
    { done := false, videoUri := none }
    { done := true, videoUri := some "https://video.example/route.mp4" }
    10 rfl rfl rfl rfl rfl rfl (by decide)).1

/-- **C7**.  The polling loop enforces no retry bound: if the external job
never reports `done = true`, then for every `k` the loop is still running
after `k` wait-and-poll iterations — `generateRouteVideo` never exits,
errors, or gives up on its own. -/
theorem poll_loop_unbounded (env : VideoEnv) (op0 : Operation)
    (hs : env.submit = Except.ok op0) (h0 : op0.done = false)
    (hp : ∀ n, ∃ op, env.poll n = Except.ok op ∧ op.done = false) :
    ∀ k, pollLoop env.poll k op0 0 = none ∧ generateRouteVideo env k = none := by
  intro k
  have hloop := pollLoop_stuck env.poll hp k op0 0 h0
  exact ⟨hloop, by simp [generateRouteVideo, tryBody, hs, hloop]⟩

/-- Witness for C7: the concrete never-done environment is still polling
after 5 allowed iterations. -/
theorem poll_loop_unbounded_witness :
    pollLoop envStuck.poll 5 { done := false, videoUri := none } 0 = none ∧
    generateRouteVideo envStuck 5 = none :=
  poll_loop_unbounded envStuck { done := false, videoUri := none }
    rfl rfl (fun _ => ⟨{ done := false, videoUri := none }, rfl, rfl⟩) 5

end GpsRoute
